import Mathlib

/-!
Verification of the DC-Diabetes-Access cost-comparison engine.

The definitions below are a shallow embedding of `dc_access.py` and `app.py`:
Python scalar values flowing through the comparator are modelled by `Val`
(finite floats as rationals, `float('nan')`, strings, and `None`); fallible
Python code is modelled with `Except PyErr`; pandas rows become records with
`Option Val` fields (`none` = the dictionary key is absent).
-/

namespace DCAccess

/-- A Python scalar value as it occurs in the comparator's data flow:
a finite float (kept exact as a rational), `float('nan')`, a string, or `None`. -/
inductive Val where
  | num (q : ℚ)
  | nan
  | str (s : String)
  | pynone
deriving DecidableEq

/-- A value of Python type `float`: either finite or NaN
(infinities never arise in this program's arithmetic). -/
inductive FloatV where
  | num (q : ℚ)
  | nan
deriving DecidableEq

/-- Embed a float back into the scalar model. -/
def FloatV.toVal : FloatV → Val
  | .num q => .num q
  | .nan => .nan

/-- The Python exceptions this code can raise. -/
inductive PyErr where
  | typeError
  | valueError
  | attributeError
deriving DecidableEq

/-- Python `str(x)`. The textual form of a finite float is abstracted by the
rational's `toString`; all that matters downstream is that it is never the
word "yes". -/
def pyStr : Val → String
  | .num q => toString q
  | .nan => "nan"
  | .str s => s
  | .pynone => "None"

/-- ASCII lowering of one character (`str.lower` acts per character). -/
def charLower (c : Char) : Char :=
  if 'A' ≤ c ∧ c ≤ 'Z' then Char.ofNat (c.toNat + 32) else c

/-- Python `str.lower()` (executable model over the character list). -/
def lowerStr (s : String) : String := String.mk (s.data.map charLower)

/-- Python `str.strip()`: drop whitespace from both ends. -/
def trimStr (s : String) : String :=
  String.mk (((s.data.dropWhile Char.isWhitespace).reverse.dropWhile
    Char.isWhitespace).reverse)

/-- Split a character list at every occurrence of `c` (the splitting behaviour
of `str.split`/`splitOn` needed by the float grammar). -/
def splitOnChar (c : Char) : List Char → List (List Char)
  | [] => [[]]
  | x :: rest =>
    let r := splitOnChar c rest
    if x = c then [] :: r
    else
      match r with
      | h :: t => (x :: h) :: t
      | [] => [[x]]

/-- Python `s.replace('tier', '')` on an already-lowercased string: remove
every (leftmost, non-overlapping) occurrence of `"tier"`. -/
def replaceTier : List Char → List Char
  | 't' :: 'i' :: 'e' :: 'r' :: rest => replaceTier rest
  | c :: rest => c :: replaceTier rest
  | [] => []

/-- `pd.isna(x)`: true on `float('nan')` and on `None`. -/
def pdIsna : Val → Bool
  | .nan => true
  | .pynone => true
  | _ => false

/-- Python truthiness of a scalar: `0`, `""` and `None` are falsy;
NaN is truthy. -/
def truthy : Val → Bool
  | .num q => decide (q ≠ 0)
  | .nan => true
  | .str s => decide (s ≠ "")
  | .pynone => false

/-- Value of a digit string, `none` when empty or containing a non-digit. -/
def digitsVal? (cs : List Char) : Option ℕ :=
  match cs with
  | [] => none
  | _ => cs.foldl
      (fun acc c =>
        match acc with
        | none => none
        | some n => if c.isDigit then some (10 * n + (c.toNat - '0'.toNat)) else none)
      (some 0)

/-- Python `int(s)` on an already-stripped string: optional sign, then
digits. -/
def digitsInt? (cs : List Char) : Option ℤ :=
  match cs with
  | '-' :: rest => (digitsVal? rest).map (fun n => -(n : ℤ))
  | '+' :: rest => (digitsVal? rest).map (fun n => (n : ℤ))
  | _ => (digitsVal? cs).map (fun n => (n : ℤ))

/-- Parse an unsigned decimal literal (`"12"` or `"12.5"`). -/
def parseDecimal? (cs : List Char) : Option ℚ :=
  match splitOnChar '.' cs with
  | [w] => (digitsVal? w).map (fun n => (n : ℚ))
  | [w, f] =>
    match digitsVal? w, digitsVal? f with
    | some n, some m => some ((n : ℚ) + (m : ℚ) / (10 : ℚ) ^ f.length)
    | _, _ => none
  | _ => none

/-- The string grammar accepted by Python `float(...)`, restricted to the
plain signed decimal forms relevant here. -/
def pyFloatParse? (s0 : String) : Option ℚ :=
  match (trimStr s0).data with
  | '-' :: rest => (parseDecimal? rest).map (fun q => -q)
  | '+' :: rest => parseDecimal? rest
  | cs => parseDecimal? cs

/-- Python `float(x)`: floats pass through (NaN included, without raising),
strings are parsed (`ValueError` on failure), `None` raises `TypeError`. -/
def pyFloat : Val → Except PyErr FloatV
  | .num q => .ok (.num q)
  | .nan => .ok .nan
  | .str s =>
    match pyFloatParse? s with
    | some q => .ok (.num q)
    | none => .error .valueError
  | .pynone => .error .typeError

/-- Float addition; NaN propagates. -/
def FloatV.addF : FloatV → FloatV → FloatV
  | .num a, .num b => .num (a + b)
  | _, _ => .nan

/-- Float subtraction; NaN propagates. -/
def FloatV.subF : FloatV → FloatV → FloatV
  | .num a, .num b => .num (a - b)
  | _, _ => .nan

/-- Float times a non-negative integer; NaN propagates. -/
def FloatV.mulN (f : FloatV) (n : ℕ) : FloatV :=
  match f with
  | .num q => .num (q * n)
  | .nan => .nan

/-- Python string repetition `s * n`. -/
def strRepeat (s : String) : ℕ → String
  | 0 => ""
  | n + 1 => s ++ strRepeat s n

/-- Python `x * months` for an `int` months: numbers multiply, NaN propagates,
a string is repeated, `None` raises `TypeError`. -/
def pyMulNat : Val → ℕ → Except PyErr Val
  | .num q, n => .ok (.num (q * n))
  | .nan, _ => .ok .nan
  | .str s, n => .ok (.str (strRepeat s n))
  | .pynone, _ => .error .typeError

/-- Python true division `x / n` by the positive literal 12 used in the app
(numbers divide exactly in ℚ, NaN propagates, strings and `None` raise). -/
def pyDivNat : Val → ℕ → Except PyErr Val
  | .num q, n => .ok (.num (q / n))
  | .nan, _ => .ok .nan
  | .str _, _ => .error .typeError
  | .pynone, _ => .error .typeError

/-- Python `x - y` for the float-or-NaN operands arising here;
other operand types raise `TypeError`. -/
def pySub : Val → Val → Except PyErr Val
  | .num a, .num b => .ok (.num (a - b))
  | .num _, .nan => .ok .nan
  | .nan, .num _ => .ok .nan
  | .nan, .nan => .ok .nan
  | _, _ => .error .typeError

/-! ## The data model (rows of the three CSV-backed tables)

A record field of type `Option Val` is `none` exactly when the dictionary
produced by `row.to_dict()` lacks that key (e.g. the CSV column is absent). -/

/-- A row of `medicines.csv` (the fields the core logic reads). -/
structure MedRec where
  medicine_name : String
  average_cost_per_month : Option Val := none
  goodrx_price : Option Val := none
deriving DecidableEq

/-- A row of `insurance.csv` (the fields the core logic reads; the per-visit
copays and coverage percentage are carried to show they never enter the
medication cost). -/
structure InsRec where
  insurance_name : String
  deductible : Option Val := none
  coverage_percentage : Option Val := none
  copay_primary_care : Option Val := none
  copay_specialist : Option Val := none
  copay_emergency : Option Val := none
deriving DecidableEq

/-- A row of `insurance_medicine_coverage.csv`. -/
structure CovRec where
  insurance_name : String
  medicine_name : String
  covered : Option Val := none
  copay_amount : Option Val := none
  tier_level : Option Val := none
deriving DecidableEq

/-- The three in-memory tables loaded at startup. -/
structure DataStore where
  medicines : List MedRec
  insurances : List InsRec
  coverages : List CovRec
deriving DecidableEq

/-- `DiabetesCostComparator.get_medicine_info`: first row whose
`medicine_name` matches, else `None`. -/
def get_medicine_info (s : DataStore) (name : String) : Option MedRec :=
  s.medicines.find? (fun m => m.medicine_name == name)

/-- `DiabetesCostComparator.get_insurance_info`. -/
def get_insurance_info (s : DataStore) (name : String) : Option InsRec :=
  s.insurances.find? (fun i => i.insurance_name == name)

/-- `DiabetesCostComparator.get_coverage_info`. -/
def get_coverage_info (s : DataStore) (ins_name med_name : String) : Option CovRec :=
  s.coverages.find? (fun c => c.insurance_name == ins_name && c.medicine_name == med_name)

/-! ## The cost resolver (`DiabetesCostComparator.calculate_total_cost`) -/

/-- `float(v)` with the surrounding `try/except` that falls back to `0.0`
when the conversion raises; a NaN float converts to NaN without raising. -/
def floatOrZero (v : Val) : FloatV :=
  match pyFloat v with
  | .ok f => f
  | .error _ => .num 0

/-- The deductible as computed in `calculate_total_cost`: `0.0` unless the
insurance dict is present with a non-`None` `deductible`, in which case
`float(...)` is applied (falling back to `0.0` if that raises). -/
def deduct_of : Option InsRec → FloatV
  | none => .num 0
  | some i =>
    match i.deductible.getD Val.pynone with
    | Val.pynone => .num 0
    | v => floatOrZero v

/-- `covered_flag`: the coverage dict exists and
`str(coverage_info.get('covered')).strip().lower() == 'yes'`. -/
def covered_flag : Option CovRec → Bool
  | none => false
  | some c => lowerStr (trimStr (pyStr (c.covered.getD Val.pynone))) == "yes"

/-- The early-return inside the uncovered branch's `try` block: when
`goodrx_price` is present, non-`None` and not NaN, return `some (float(gr))`;
a `ValueError` from `float` is caught by the surrounding `except`, which
falls through to the average-cost line (`none` here). -/
def cash_branch (m : MedRec) : Option FloatV :=
  let gr := m.goodrx_price.getD Val.pynone
  if gr ≠ Val.pynone ∧ pdIsna gr = false then
    match pyFloat gr with
    | .ok f => some f
    | .error _ => none
  else none

/-- `DiabetesCostComparator.calculate_total_cost`.

When `covered_flag` holds, the result is `deductible + copay * months`
(`float` coercions falling back to `0.0` on exception). Otherwise, with no
insurance dict, a configured non-NaN cash price returns `cash * months`;
in every remaining case the last line runs
`medicine_info.get('average_cost_per_month', 0) * months`, which raises
`AttributeError` when `medicine_info` is `None` (that line sits outside the
`try` block). -/
def calculate_total_cost (medicine_info : Option MedRec) (insurance_info : Option InsRec)
    (coverage_info : Option CovRec) (months : ℕ) : Except PyErr Val :=
  if covered_flag coverage_info then
    match coverage_info with
    | some c =>
      let copay := floatOrZero (c.copay_amount.getD Val.pynone)
      .ok (FloatV.toVal ((deduct_of insurance_info).addF (copay.mulN months)))
    | none => .ok (Val.num 0)  -- unreachable: covered_flag none = false
  else
    match insurance_info, medicine_info with
    | _, none => .error .attributeError
    | none, some m =>
      match cash_branch m with
      | some f => .ok (FloatV.toVal (f.mulN months))
      | none => pyMulNat (m.average_cost_per_month.getD (Val.num 0)) months
    | some _, some m => pyMulNat (m.average_cost_per_month.getD (Val.num 0)) months

/-! ## The pairing builder (`app.build_pairings`) -/

/-- One element of the list handed to the template: the dictionary built by
`build_pairings.add_pair` (and, for the synthetic cash row, by the insert in
`index`). `Val.pynone` models a key holding Python `None`. -/
structure Pairing where
  medicine_name : String
  insurance_name : String
  medicine : Option MedRec
  insurance : Option InsRec
  coverage : Option CovRec
  annual_cost : Val
  monthly_cost : Val
  full_monthly : Val
  full_annual : Val
  goodrx_price : Val := Val.pynone
  goodrx_eligible : Bool := false
  unauth_annual : Val := Val.pynone
  copay_amount : Val
  monthly_savings : Val
  annual_savings : Val
  is_cash : Bool := false
deriving DecidableEq

/-- `full_monthly` before the cash-price preference:
`float(med_info.get("average_cost_per_month", 0))` under a `try` whose
`except` sets `0.0` (this catches both the `AttributeError` when `med_info`
is `None` and any conversion error). -/
def full_monthly_base (med_info : Option MedRec) : Val :=
  match med_info with
  | none => Val.num 0
  | some m =>
    match pyFloat (m.average_cost_per_month.getD (Val.num 0)) with
    | .ok f => f.toVal
    | .error _ => Val.num 0

/-- The explicit GoodRx price of `add_pair`: `float(gr)` when
`gr is not None and gr != "" and not pd.isna(gr)`, `None` otherwise
(conversion errors are caught and yield `None`). -/
def goodrx_of (med_info : Option MedRec) : Val :=
  match med_info with
  | none => Val.pynone
  | some m =>
    let gr := m.goodrx_price.getD Val.pynone
    if gr ≠ Val.pynone ∧ gr ≠ Val.str "" ∧ pdIsna gr = false then
      match pyFloat gr with
      | .ok f => f.toVal
      | .error _ => Val.pynone
    else Val.pynone

/-- The copay field of `add_pair`: `float(cov_info.get("copay_amount"))`
when the coverage dict exists, has the key, and its value is not `None`;
`None` otherwise (conversion errors are caught). -/
def copay_of (cov_info : Option CovRec) : Val :=
  match cov_info with
  | none => Val.pynone
  | some c =>
    match c.copay_amount with
    | none => Val.pynone
    | some Val.pynone => Val.pynone
    | some v =>
      match pyFloat v with
      | .ok f => f.toVal
      | .error _ => Val.pynone

/-- `build_pairings.add_pair`: look the three entities up, resolve the cost,
and enrich. Each `match … | .error e => .error e` step is a Python
expression whose exception propagates out of `build_pairings`. -/
def add_pair (s : DataStore) (selected_insurance : Option String)
    (med_name ins_name : String) : Except PyErr Pairing :=
  let med_info := get_medicine_info s med_name
  let ins_info := get_insurance_info s ins_name
  let cov_info := get_coverage_info s ins_name med_name
  match calculate_total_cost med_info ins_info cov_info 12 with
  | .error e => .error e
  | .ok annual_cost =>
    match pyDivNat annual_cost 12 with
    | .error e => .error e
    | .ok monthly_cost =>
      let gp := goodrx_of med_info
      let full_monthly :=
        if selected_insurance = none ∧ gp ≠ Val.pynone then gp
        else full_monthly_base med_info
      match pyMulNat full_monthly 12 with
      | .error e => .error e
      | .ok full_annual =>
        let cp := copay_of cov_info
        match (if cp = Val.pynone then .ok Val.pynone else pySub full_monthly cp :
            Except PyErr Val) with
        | .error e => .error e
        | .ok monthly_savings =>
          match pySub full_annual annual_cost with
          | .error e => .error e
          | .ok annual_savings =>
            .ok { medicine_name := med_name, insurance_name := ins_name,
                  medicine := med_info, insurance := ins_info, coverage := cov_info,
                  annual_cost := annual_cost, monthly_cost := monthly_cost,
                  full_monthly := full_monthly, full_annual := full_annual,
                  goodrx_price := gp, goodrx_eligible := gp ≠ Val.pynone,
                  copay_amount := cp, monthly_savings := monthly_savings,
                  annual_savings := annual_savings }

/-- Run a fallible step over a list in order, collecting the outputs; the
first exception aborts the whole enumeration (the Python `for` loop). -/
def mapME (f : α → Except PyErr β) : List α → Except PyErr (List β)
  | [] => .ok []
  | a :: l =>
    match f a with
    | .error e => .error e
    | .ok b =>
      match mapME f l with
      | .error e => .error e
      | .ok bs => .ok (b :: bs)

/-- `app.build_pairings`: expand the selection into pairings
(cross product / one side fixed / single pair). -/
def build_pairings (s : DataStore) (selected_medicine selected_insurance : Option String) :
    Except PyErr (List Pairing) :=
  let med_list := s.medicines.map (·.medicine_name)
  let ins_list := s.insurances.map (·.insurance_name)
  match selected_medicine, selected_insurance with
  | none, none =>
    match mapME (fun m => mapME (fun i => add_pair s none m i) ins_list) med_list with
    | .error e => .error e
    | .ok rows => .ok rows.flatten
  | some m, none => mapME (fun i => add_pair s none m i) ins_list
  | none, some i => mapME (fun m => add_pair s (some i) m i) med_list
  | some m, some i =>
    match add_pair s (some i) m i with
    | .error e => .error e
    | .ok p => .ok [p]

/-! ## The cash-price injection and the current-selection card (`app.index`) -/

/-- The guard of the GoodRx insert:
`med_info and med_info.get("goodrx_price") and not pd.isna(...)` — the row
dictionaries are never empty, so `med_info` is truthy iff the lookup
succeeded; the raw price must be truthy (`0` and `""` are falsy) and
not NaN. -/
def cash_guard (s : DataStore) (med : String) : Bool :=
  match get_medicine_info s med with
  | none => false
  | some m =>
    let gr := m.goodrx_price.getD Val.pynone
    truthy gr && !(pdIsna gr)

/-- The synthetic GoodRx pairing dict built inside the `try` of the insert;
any exception while building it is caught (`except: pass`) and nothing is
inserted. -/
def cash_row (m : MedRec) (med : String) : Except PyErr Pairing :=
  match calculate_total_cost (some m) none none 12 with
  | .error e => .error e
  | .ok gr_annual =>
    match pyDivNat gr_annual 12 with
    | .error e => .error e
    | .ok monthly =>
      match pyFloat (m.goodrx_price.getD Val.pynone) with
      | .error e => .error e
      | .ok fm =>
        .ok { medicine_name := med, insurance_name := "GoodRx (CVS - DC)",
              medicine := some m, insurance := none, coverage := none,
              annual_cost := gr_annual, monthly_cost := monthly,
              full_monthly := fm.toVal, full_annual := (fm.mulN 12).toVal,
              copay_amount := Val.pynone, monthly_savings := Val.pynone,
              annual_savings := Val.pynone, is_cash := true }

/-- Lines 333–355 of `app.index`: when a medicine is selected, insurance is
blank, and the guard passes, prepend the cash row (insert at position 0). -/
def inject_cash (s : DataStore) (selected_medicine selected_insurance : Option String)
    (ps : List Pairing) : List Pairing :=
  match selected_medicine, selected_insurance with
  | some med, none =>
    if cash_guard s med then
      match get_medicine_info s med with
      | some m =>
        match cash_row m med with
        | .ok p => p :: ps
        | .error _ => ps
      | none => ps
    else ps
  | _, _ => ps

/-- The "current selection" card of the both-selected branch
(`app.index`, lines 248–266). -/
structure CurrentCard where
  medicine : MedRec
  insurance : InsRec
  coverage : Option CovRec
  annual_cost : Val
  monthly_cost : Val
deriving DecidableEq

/-- Build the current card: only when both lookups succeed, with
`monthly_cost = annual_cost / 12`. -/
def current_card (s : DataStore) (med ins : String) : Except PyErr (Option CurrentCard) :=
  match get_medicine_info s med, get_insurance_info s ins with
  | some m, some i =>
    match calculate_total_cost (some m) (some i) (get_coverage_info s ins med) 12 with
    | .error e => .error e
    | .ok a =>
      match pyDivNat a 12 with
      | .error e => .error e
      | .ok mo =>
        .ok (some { medicine := m, insurance := i,
                    coverage := get_coverage_info s ins med,
                    annual_cost := a, monthly_cost := mo })
  | _, _ => .ok none

/-! ## The trial-flow state machine (`app.index`, POST with `trial_action`) -/

/-- The fixed questionnaire order. -/
def TRIAL_SEQUENCE : List String :=
  ["Metformin", "Glipizide", "Invokana", "Januvia", "Tirzepatide", "Semaglutide", "Jardiance"]

/-- The request-scoped state the trial branch leaves behind. -/
structure TrialResult where
  selected_medicine : Option String
  trial_question : Option String
  trial_index : ℕ
  skip_build_results : Bool
  show_all_after_trial : Bool
deriving DecidableEq

/-- One step of the trial flow (`app.index`, lines 211–228): an answer whose
trimmed lowercase form is "no" selects `sequence[index]` (or `None` when the
index is out of range); any other answer advances the index, either emitting
the next question and suppressing results, or — past the end — requesting
all pairings with no medicine filter. -/
def trial_step (seq : List String) (trial_answer : String) (trial_index : ℕ) : TrialResult :=
  if lowerStr (trimStr trial_answer) == "no" then
    { selected_medicine := seq.get? trial_index, trial_question := none,
      trial_index := trial_index, skip_build_results := false,
      show_all_after_trial := false }
  else
    let idx := trial_index + 1
    if idx < seq.length then
      { selected_medicine := none, trial_question := seq.get? idx, trial_index := idx,
        skip_build_results := true, show_all_after_trial := false }
    else
      { selected_medicine := none, trial_question := none, trial_index := idx,
        skip_build_results := false, show_all_after_trial := true }

/-- What the handler builds after the trial step (lines 242, 326–331):
nothing while suspended on a question, everything (no filter) after the
sequence is exhausted, otherwise the pairings for the trial's selection. -/
def trial_flow_pairings (s : DataStore) (seq : List String) (answer : String) (idx : ℕ)
    (sel_ins : Option String) : Except PyErr (List Pairing) :=
  let r := trial_step seq answer idx
  if r.skip_build_results ∧ r.show_all_after_trial = false then .ok []
  else if r.show_all_after_trial then build_pairings s none none
  else build_pairings s r.selected_medicine sel_ins

/-! ## Tier comparison (`app.tier_num` and the `tried` enrichment) -/

/-- `app.tier_num`: `None` on a falsy argument, else
`int(str(x).strip().lower().replace('tier', '').strip())` with every
exception mapped to `None`. -/
def tier_num (tier_str : Val) : Option ℤ :=
  if truthy tier_str = false then none
  else
    digitsInt? (trimStr (String.mk (replaceTier
      (lowerStr (trimStr (pyStr tier_str))).data))).data

/-- The argument handed to `tier_num`:
`cov.get("tier_level") if cov else None`. -/
def tier_of_cov : Option CovRec → Val
  | none => Val.pynone
  | some c => c.tier_level.getD Val.pynone

/-- The `tried` enrichment of one pairing (`app.index`, lines 357–368): the
selected medicine's tier under the row's insurance versus the row's own
tier; `True` only when both parse and the row's tier is strictly greater. -/
def is_higher_tier (s : DataStore) (selected_medicine : String) (p : Pairing) : Bool :=
  let sel_t := tier_num (tier_of_cov (get_coverage_info s p.insurance_name selected_medicine))
  let p_t := tier_num (tier_of_cov p.coverage)
  match p_t, sel_t with
  | some pt, some st => decide (st < pt)
  | _, _ => false

/-! ## The sort stage (`app.index._key` and `list.sort`) -/

/-- The values `_key` can return: a (lower-cased) name string, a float
(possibly NaN), or the `float('inf')` / `-float('inf')` sentinels for
missing costs / savings. -/
inductive SortKey where
  | str (s : String)
  | flt (f : FloatV)
  | posInf
  | negInf
deriving DecidableEq

/-- View a stored cost value as a sort key (the raw dict value is used as
the key; `None` never reaches here because `_key` tests it first). -/
def valKey : Val → SortKey
  | .num q => .flt (.num q)
  | .nan => .flt .nan
  | .str s => .str s
  | .pynone => .posInf

/-- `app.index._key`: name keys are lower-cased strings; `monthly` and the
default `annual` key fall back to `float('inf')` when the cost is `None`;
`savings` falls back to `-float('inf')`. -/
def sort_key (sort_by : String) (p : Pairing) : SortKey :=
  if sort_by == "medicine" then .str (lowerStr p.medicine_name)
  else if sort_by == "insurance" then .str (lowerStr p.insurance_name)
  else if sort_by == "monthly" then
    (if p.monthly_cost = Val.pynone then .posInf else valKey p.monthly_cost)
  else if sort_by == "savings" then
    (if p.annual_savings = Val.pynone then .negInf else valKey p.annual_savings)
  else (if p.annual_cost = Val.pynone then .posInf else valKey p.annual_cost)

/-- Whether a float is an actual number (not NaN). -/
def FloatV.isNum : FloatV → Bool
  | .num _ => true
  | .nan => false

/-- Python `<` on floats: NaN compares false against everything. -/
def fltLt : FloatV → FloatV → Bool
  | .num a, .num b => decide (a < b)
  | _, _ => false

/-- Python `<` on the key values (same-type comparisons only; a cross-type
string/float comparison would raise in Python and never occurs between keys
of one sort call, so it is rendered here as "no order"). -/
def ltKey : SortKey → SortKey → Bool
  | .str a, .str b => decide (a < b)
  | .flt a, .flt b => fltLt a b
  | .flt a, .posInf => a.isNum
  | .negInf, .flt b => b.isNum
  | .negInf, .posInf => true
  | _, _ => false

/-- Insert an element arriving after everything already in the list: it goes
in front of the first strictly greater element, hence after all earlier
equal ones. -/
def insSorted (lt : α → α → Bool) (a : α) : List α → List α
  | [] => [a]
  | b :: t => if lt a b then a :: b :: t else b :: insSorted lt a t

/-- A stable sort (the specification of CPython's `list.sort`): elements are
inserted left to right, each after all earlier comparator-equal elements. -/
def stableSort (lt : α → α → Bool) (l : List α) : List α :=
  l.foldl (fun s a => insSorted lt a s) []

/-- The comparison `list.sort(key=_key)` induces between two pairings. -/
def pairLt (sort_by : String) (p q : Pairing) : Bool :=
  ltKey (sort_key sort_by p) (sort_key sort_by q)

/-- `pairings.sort(key=_key, reverse=(order == "desc"))`: `reverse=True`
reverses each comparison but keeps ties in their prior order. -/
def sortPairings (sort_by order : String) (ps : List Pairing) : List Pairing :=
  if order == "desc" then stableSort (fun p q => pairLt sort_by q p) ps
  else stableSort (pairLt sort_by) ps

/-- The broad-query branch of `app.index` (one or both selections blank):
build the pairings, inject the cash row if due, then sort. -/
def broad_results (s : DataStore) (sel_med sel_ins : Option String)
    (sort_by order : String) : Except PyErr (List Pairing) :=
  match build_pairings s sel_med sel_ins with
  | .error e => .error e
  | .ok ps => .ok (sortPairings sort_by order (inject_cash s sel_med sel_ins ps))

/-! ## Well-formedness of store rows (what the pandas numeric coercion at
load time guarantees: a numeric column holds a number or NaN). -/

/-- A field that, when present, holds a float (number or NaN). -/
def numericField (o : Option Val) : Prop :=
  ∀ x, o = some x → (∃ q, x = Val.num q) ∨ x = Val.nan

/-- `average_cost_per_month` is coerced with `pd.to_numeric(errors='coerce')`
at load time. -/
def MedRec.wf (m : MedRec) : Prop := numericField m.average_cost_per_month

/-- Every loaded medicine row is coerced. -/
def DataStore.wfMeds (s : DataStore) : Prop := ∀ m ∈ s.medicines, m.wf

/-- A value that is a Python float (the shape `calculate_total_cost` returns
on coerced rows). -/
def isFloatVal (v : Val) : Prop := ∃ f : FloatV, v = f.toVal

/-- The element comparison induced by a key function and a key order
(the shape of `pairLt`). -/
def keyLt (key : α → κ) (ltk : κ → κ → Bool) (x y : α) : Bool := ltk (key x) (key y)

/-- The sortedness invariant insertion maintains: no later element is
strictly below an earlier one. -/
def keyInv (key : α → κ) (ltk : κ → κ → Bool) (s : List α) : Prop :=
  s.Pairwise (fun x y => ltk (key y) (key x) = false)

/-! ## Concrete rows and stores used by counterexamples and witnesses -/

/-- Decidable equality on `Except`, so concrete runs can be checked by
`decide`. -/
instance {ε α : Type} [DecidableEq ε] [DecidableEq α] : DecidableEq (Except ε α) := fun a b =>
  match a, b with
  | .ok x, .ok y =>
    if h : x = y then .isTrue (by rw [h]) else .isFalse (fun hc => h (Except.ok.inj hc))
  | .error x, .error y =>
    if h : x = y then .isTrue (by rw [h]) else .isFalse (fun hc => h (Except.error.inj hc))
  | .ok _, .error _ => .isFalse (fun hc => Except.noConfusion hc)
  | .error _, .ok _ => .isFalse (fun hc => Except.noConfusion hc)

/-- Concrete medicine with no numeric fields configured. -/
def medM : MedRec := { medicine_name := "Metformin" }

/-- Concrete insurance with a 100-dollar deductible. -/
def insCig : InsRec := { insurance_name := "Cigna", deductible := some (Val.num 100) }

/-- Coverage rule marked covered whose copay is the pandas coercion of a
non-numeric CSV entry, i.e. `float('nan')`. -/
def covNanCopay : CovRec :=
  { insurance_name := "Cigna", medicine_name := "Metformin",
    covered := some (Val.str "Yes"), copay_amount := some Val.nan }

/-- Coverage rule with a plain numeric copay. -/
def covTen : CovRec :=
  { insurance_name := "Cigna", medicine_name := "Metformin",
    covered := some (Val.str "Yes"), copay_amount := some (Val.num 10) }

/-- Medicine whose average monthly cost is the pandas coercion of a
non-numeric CSV entry, i.e. NaN. -/
def medNanAvg : MedRec :=
  { medicine_name := "M2", average_cost_per_month := some Val.nan }

/-- Medicine with a plain numeric average cost. -/
def medAvg7 : MedRec :=
  { medicine_name := "M7", average_cost_per_month := some (Val.num 7) }

/-- Medicine with a 25-dollar cash price. -/
def medCash25 : MedRec := { medicine_name := "C25", goodrx_price := some (Val.num 25) }

/-- Store with one insurance and no medicine rows at all: any selected
medicine name is unknown here. -/
def storeCex : DataStore :=
  { medicines := [], insurances := [{ insurance_name := "Aetna" }], coverages := [] }

/-- A one-row medicine table entry with average cost 3. -/
def medA : MedRec := { medicine_name := "A", average_cost_per_month := some (Val.num 3) }

/-- A bare insurance row. -/
def insI : InsRec := { insurance_name := "I" }

/-- Minimal healthy store: one medicine, one insurance, no coverage rules. -/
def storeW : DataStore := { medicines := [medA], insurances := [insI], coverages := [] }

/-- The single pairing `build_pairings` produces on `storeW` with no
selection. -/
def pairingW : Pairing :=
  { medicine_name := "A", insurance_name := "I",
    medicine := some medA, insurance := some insI, coverage := none,
    annual_cost := Val.num (3 * ((12 : ℕ) : ℚ)),
    monthly_cost := Val.num (3 * ((12 : ℕ) : ℚ) / ((12 : ℕ) : ℚ)),
    full_monthly := Val.num 3, full_annual := Val.num (3 * ((12 : ℕ) : ℚ)),
    goodrx_price := Val.pynone, goodrx_eligible := false,
    copay_amount := Val.pynone, monthly_savings := Val.pynone,
    annual_savings := Val.num (3 * ((12 : ℕ) : ℚ) - 3 * ((12 : ℕ) : ℚ)) }

/-- Medicine whose configured cash price is exactly zero. -/
def medZ : MedRec :=
  { medicine_name := "Z", average_cost_per_month := some (Val.num 2),
    goodrx_price := some (Val.num 0) }

/-- Store holding the zero-cash-price medicine. -/
def storeZ : DataStore := { medicines := [medZ], insurances := [insI], coverages := [] }

/-- Medicine with a 25-dollar cash price living in a store, for the
injection witness. -/
def medCash25S : MedRec :=
  { medicine_name := "C25", average_cost_per_month := some (Val.num 30),
    goodrx_price := some (Val.num 25) }

/-- Store holding the 25-dollar cash-price medicine. -/
def storeCash : DataStore :=
  { medicines := [medCash25S], insurances := [insI], coverages := [] }

/-- A pairing with annual cost 10 (for sort witnesses). -/
def pSortA : Pairing :=
  { medicine_name := "a", insurance_name := "x", medicine := none, insurance := none,
    coverage := none, annual_cost := Val.num 10, monthly_cost := Val.pynone,
    full_monthly := Val.num 0, full_annual := Val.num 0,
    copay_amount := Val.pynone, monthly_savings := Val.pynone,
    annual_savings := Val.pynone }

/-- A pairing with annual cost 5 (for sort witnesses). -/
def pSortB : Pairing :=
  { medicine_name := "b", insurance_name := "y", medicine := none, insurance := none,
    coverage := none, annual_cost := Val.num 5, monthly_cost := Val.pynone,
    full_monthly := Val.num 0, full_annual := Val.num 0,
    copay_amount := Val.pynone, monthly_savings := Val.pynone,
    annual_savings := Val.pynone }

/-! # Theorems

Helper lemmas first, then one theorem per claim (with counterexamples and
witnesses as separate, closed theorems). -/

/-! ## Claims C1–C3: the cost-resolver decision policy -/

/-- C1 (counterexample). The claim says a missing-or-non-numeric
`copay_amount` is taken as 0, so with a NaN copay (the coerced form of a
non-numeric CSV entry) and a 100 deductible the result should be
`0 × 12 + 100`. The code instead computes `float(nan) = nan` and returns NaN. -/
theorem covered_nan_copay_returns_nan :
    calculate_total_cost (some medM) (some insCig) (some covNanCopay) 12 = .ok Val.nan
      ∧ Val.nan ≠ Val.num (0 * 12 + 100) := by
  refine ⟨rfl, by decide⟩

/-- C1 (amended). For any medicine argument, optional insurance, and coverage
record whose `covered` field trims and lowercases to "yes", the resolver
returns, in float semantics, `deductible + float(copay_amount) × months`,
where the `float` coercion falls back to 0 when it raises (absent key, `None`,
unparseable string) and NaN passes through; the deductible is 0 when missing
or insurance absent; and two insurance records with the same `deductible`
give the same result, so coverage percentage and per-visit copays never
enter. -/
theorem covered_cost_formula (med : Option MedRec) (ins : Option InsRec) (c : CovRec)
    (months : ℕ) (h : covered_flag (some c) = true) :
    calculate_total_cost med ins (some c) months
        = .ok (FloatV.toVal ((deduct_of ins).addF
            ((floatOrZero (c.copay_amount.getD Val.pynone)).mulN months)))
      ∧ (∀ i₁ i₂ : InsRec, i₁.deductible = i₂.deductible →
          calculate_total_cost med (some i₁) (some c) months
            = calculate_total_cost med (some i₂) (some c) months)
      ∧ floatOrZero Val.pynone = FloatV.num 0
      ∧ floatOrZero Val.nan = FloatV.nan := by
  refine ⟨?_, ?_, rfl, rfl⟩
  · simp [calculate_total_cost, h]
  · intro i₁ i₂ hded
    simp [calculate_total_cost, h, deduct_of, hded]

/-- C1 witness: the amended formula applied at a concrete covered rule
(copay 10, deductible 100, 12 months) — and the value is 220. -/
theorem covered_cost_formula_witness :
    calculate_total_cost (some medM) (some insCig) (some covTen) 12
        = .ok (FloatV.toVal ((deduct_of (some insCig)).addF
            ((floatOrZero (covTen.copay_amount.getD Val.pynone)).mulN 12)))
      ∧ calculate_total_cost (some medM) (some insCig) (some covTen) 12
        = .ok (Val.num 220) := by
  refine ⟨(covered_cost_formula (some medM) (some insCig) covTen 12 (by decide)).1, ?_⟩
  have h : calculate_total_cost (some medM) (some insCig) (some covTen) 12
      = .ok (Val.num (100 + 10 * ((12 : ℕ) : ℚ))) := rfl
  have hv : (100 + 10 * ((12 : ℕ) : ℚ)) = 220 := by norm_num
  rw [h, hv]

/-- C2 (counterexample). The claim says a missing-or-non-numeric
`average_cost_per_month` is substituted by 0, so with insurance present and
no coverage rule the result should be `0 × 12`. The code instead computes
`nan * 12` and returns NaN. -/
theorem fallback_nan_avg_returns_nan :
    calculate_total_cost (some medNanAvg) (some insCig) none 12 = .ok Val.nan
      ∧ Val.nan ≠ Val.num (0 * 12) := by
  refine ⟨rfl, by decide⟩

/-- C2 (amended). When the covered flag is false and the cash branch does not
apply (insurance present, or the goodrx early return not taken), the resolver
returns `medicine_info.get('average_cost_per_month', 0) * months` in Python
semantics: 0 is substituted only when the key is absent; a NaN value
propagates to a NaN result. -/
theorem fallback_cost_formula (m : MedRec) (ins : Option InsRec) (cov : Option CovRec)
    (months : ℕ) (hcov : covered_flag cov = false)
    (hnc : ins ≠ none ∨ cash_branch m = none) :
    calculate_total_cost (some m) ins cov months
        = pyMulNat (m.average_cost_per_month.getD (Val.num 0)) months
      ∧ (m.average_cost_per_month = none →
          calculate_total_cost (some m) ins cov months = .ok (Val.num (0 * months)))
      ∧ (m.average_cost_per_month = some Val.nan →
          calculate_total_cost (some m) ins cov months = .ok Val.nan) := by
  have hmain : calculate_total_cost (some m) ins cov months
      = pyMulNat (m.average_cost_per_month.getD (Val.num 0)) months := by
    cases ins with
    | none =>
      have hcb : cash_branch m = none := by
        rcases hnc with hne | hcb
        · exact absurd rfl hne
        · exact hcb
      simp [calculate_total_cost, hcov, hcb]
    | some i => simp [calculate_total_cost, hcov]
  refine ⟨hmain, ?_, ?_⟩
  · intro habs
    rw [hmain, habs]
    simp [pyMulNat]
  · intro hnan
    rw [hmain, hnan]
    rfl

/-- C2 witness: the amended fallback formula at a concrete input
(average 7, insurance present, no coverage rule, 12 months). -/
theorem fallback_cost_formula_witness :
    calculate_total_cost (some medAvg7) (some insCig) none 12
      = pyMulNat (medAvg7.average_cost_per_month.getD (Val.num 0)) 12 :=
  (fallback_cost_formula medAvg7 (some insCig) none 12 rfl
    (Or.inl (by simp))).1

/-- C3 (confirmed). For a medicine whose `goodrx_price` is a plain number,
no insurance supplied and the covered flag false, the resolver returns
`cash_price × duration_months`. -/
theorem cash_price_cost (m : MedRec) (q : ℚ) (cov : Option CovRec) (months : ℕ)
    (hgr : m.goodrx_price = some (Val.num q)) (hcov : covered_flag cov = false) :
    calculate_total_cost (some m) none cov months = .ok (Val.num (q * months)) := by
  have hcb : cash_branch m = some (FloatV.num q) := by
    simp [cash_branch, hgr, pdIsna, pyFloat]
  simp [calculate_total_cost, hcov, hcb, FloatV.mulN, FloatV.toVal]

/-- C3 witness: `resolve_cost(M, absent, absent, 12) = 25 × 12`. -/
theorem cash_price_cost_witness :
    calculate_total_cost (some medCash25) none none 12 = .ok (Val.num (25 * 12)) :=
  cash_price_cost medCash25 25 none 12 rfl rfl

/-! ## Helper lemmas: the fallible traversal and float-valued results -/

theorem mapME_ok_mem {α β : Type} {f : α → Except PyErr β} {l : List α} {bs : List β}
    (h : mapME f l = .ok bs) : ∀ b ∈ bs, ∃ a ∈ l, f a = .ok b := by
  induction l generalizing bs with
  | nil =>
    simp only [mapME] at h
    cases h
    intro b hb
    simp at hb
  | cons a t ih =>
    simp only [mapME] at h
    cases hfa : f a with
    | error e => rw [hfa] at h; cases h
    | ok b0 =>
      rw [hfa] at h
      cases hml : mapME f t with
      | error e => rw [hml] at h; cases h
      | ok bs0 =>
        rw [hml] at h
        cases h
        intro b hb
        rcases List.mem_cons.mp hb with rfl | hb
        · exact ⟨a, List.mem_cons_self a t, hfa⟩
        · rcases ih hml b hb with ⟨a', ha', hfa'⟩
          exact ⟨a', List.mem_cons_of_mem a ha', hfa'⟩

theorem mapME_ok_of_forall {α β : Type} {f : α → Except PyErr β} {l : List α}
    (h : ∀ a ∈ l, ∃ b, f a = .ok b) : ∃ bs, mapME f l = .ok bs := by
  induction l with
  | nil => exact ⟨[], rfl⟩
  | cons a t ih =>
    rcases h a (List.mem_cons_self a t) with ⟨b, hb⟩
    rcases ih (fun x hx => h x (List.mem_cons_of_mem a hx)) with ⟨bs, hbs⟩
    exact ⟨b :: bs, by simp [mapME, hb, hbs]⟩

theorem isFloatVal_toVal (f : FloatV) : isFloatVal f.toVal := ⟨f, rfl⟩

theorem pyDivNat_float {v : Val} (h : isFloatVal v) (n : ℕ) :
    ∃ w, pyDivNat v n = .ok w ∧ isFloatVal w := by
  rcases h with ⟨f, rfl⟩
  cases f with
  | num q => exact ⟨_, rfl, ⟨FloatV.num (q / n), rfl⟩⟩
  | nan => exact ⟨_, rfl, ⟨FloatV.nan, rfl⟩⟩

theorem pyMulNat_float {v : Val} (h : isFloatVal v) (n : ℕ) :
    ∃ w, pyMulNat v n = .ok w ∧ isFloatVal w := by
  rcases h with ⟨f, rfl⟩
  cases f with
  | num q => exact ⟨_, rfl, ⟨FloatV.num (q * n), rfl⟩⟩
  | nan => exact ⟨_, rfl, ⟨FloatV.nan, rfl⟩⟩

theorem pySub_float {a b : Val} (ha : isFloatVal a) (hb : isFloatVal b) :
    ∃ w, pySub a b = .ok w ∧ isFloatVal w := by
  rcases ha with ⟨f, rfl⟩
  rcases hb with ⟨g, rfl⟩
  cases f <;> cases g
  · exact ⟨_, rfl, ⟨FloatV.num _, rfl⟩⟩
  · exact ⟨_, rfl, ⟨FloatV.nan, rfl⟩⟩
  · exact ⟨_, rfl, ⟨FloatV.nan, rfl⟩⟩
  · exact ⟨_, rfl, ⟨FloatV.nan, rfl⟩⟩

theorem full_monthly_base_float (mi : Option MedRec) : isFloatVal (full_monthly_base mi) := by
  cases mi with
  | none => exact ⟨FloatV.num 0, rfl⟩
  | some m =>
    simp only [full_monthly_base]
    cases hp : pyFloat (m.average_cost_per_month.getD (Val.num 0)) with
    | ok f => exact ⟨f, rfl⟩
    | error e => exact ⟨FloatV.num 0, rfl⟩

theorem goodrx_of_cases (mi : Option MedRec) :
    goodrx_of mi = Val.pynone ∨ isFloatVal (goodrx_of mi) := by
  cases mi with
  | none => exact Or.inl rfl
  | some m =>
    simp only [goodrx_of]
    by_cases hc : m.goodrx_price.getD Val.pynone ≠ Val.pynone
        ∧ m.goodrx_price.getD Val.pynone ≠ Val.str ""
        ∧ pdIsna (m.goodrx_price.getD Val.pynone) = false
    · rw [if_pos hc]
      cases hp : pyFloat (m.goodrx_price.getD Val.pynone) with
      | ok f => exact Or.inr ⟨f, rfl⟩
      | error e => exact Or.inl rfl
    · rw [if_neg hc]
      exact Or.inl rfl

theorem copay_of_cases (cov : Option CovRec) :
    copay_of cov = Val.pynone ∨ isFloatVal (copay_of cov) := by
  cases cov with
  | none => exact Or.inl rfl
  | some c =>
    simp only [copay_of]
    cases hca : c.copay_amount with
    | none => exact Or.inl rfl
    | some v =>
      cases v with
      | pynone => exact Or.inl rfl
      | num q => exact Or.inr ⟨FloatV.num q, rfl⟩
      | nan => exact Or.inr ⟨FloatV.nan, rfl⟩
      | str t =>
        simp only
        cases hp : pyFloat (Val.str t) with
        | ok f => exact Or.inr ⟨f, rfl⟩
        | error e => exact Or.inl rfl

theorem calc_ok_float {m : MedRec} (hwf : m.wf) (ins : Option InsRec) (cov : Option CovRec)
    (months : ℕ) :
    ∃ v, calculate_total_cost (some m) ins cov months = .ok v ∧ isFloatVal v := by
  have havg : ∃ v, pyMulNat (m.average_cost_per_month.getD (Val.num 0)) months = .ok v
      ∧ isFloatVal v := by
    cases ha : m.average_cost_per_month with
    | none => exact ⟨_, rfl, ⟨FloatV.num _, rfl⟩⟩
    | some x =>
      rcases hwf x ha with ⟨q, rfl⟩ | rfl
      · exact ⟨_, rfl, ⟨FloatV.num _, rfl⟩⟩
      · exact ⟨_, rfl, ⟨FloatV.nan, rfl⟩⟩
  by_cases hc : covered_flag cov = true
  · cases cov with
    | none => simp [covered_flag] at hc
    | some c =>
      exact ⟨FloatV.toVal ((deduct_of ins).addF
          ((floatOrZero (c.copay_amount.getD Val.pynone)).mulN months)),
        by simp [calculate_total_cost, hc], isFloatVal_toVal _⟩
  · have hc' : covered_flag cov = false := by simpa using hc
    rcases havg with ⟨v, hv, hfl⟩
    cases ins with
    | some i => exact ⟨v, by simp [calculate_total_cost, hc', hv], hfl⟩
    | none =>
      cases hcb : cash_branch m with
      | some f =>
        exact ⟨(f.mulN months).toVal,
          by simp [calculate_total_cost, hc', hcb], isFloatVal_toVal _⟩
      | none => exact ⟨v, by simp [calculate_total_cost, hc', hcb, hv], hfl⟩

theorem add_pair_fields {s : DataStore} {si : Option String} {mn inn : String} {p : Pairing}
    (h : add_pair s si mn inn = .ok p) :
    pyDivNat p.annual_cost 12 = .ok p.monthly_cost
    ∧ p.goodrx_price = goodrx_of (get_medicine_info s mn)
    ∧ p.goodrx_eligible = decide (goodrx_of (get_medicine_info s mn) ≠ Val.pynone)
    ∧ p.medicine = get_medicine_info s mn
    ∧ p.insurance = get_insurance_info s inn
    ∧ p.coverage = get_coverage_info s inn mn
    ∧ p.medicine_name = mn ∧ p.insurance_name = inn ∧ p.is_cash = false := by
  simp only [add_pair] at h
  repeat' split at h
  any_goals cases h
  all_goals simp_all

theorem add_pair_ok_of_found {s : DataStore} {si : Option String} {mn inn : String}
    {m : MedRec} (hm : get_medicine_info s mn = some m) (hwf : m.wf) :
    ∃ p, add_pair s si mn inn = .ok p := by
  rcases calc_ok_float hwf (get_insurance_info s inn) (get_coverage_info s inn mn) 12 with
    ⟨v, hv, hfl⟩
  rcases pyDivNat_float hfl 12 with ⟨mo, hmo, _⟩
  have hfm : isFloatVal (if si = none ∧ goodrx_of (get_medicine_info s mn) ≠ Val.pynone
      then goodrx_of (get_medicine_info s mn)
      else full_monthly_base (get_medicine_info s mn)) := by
    by_cases hgp : si = none ∧ goodrx_of (get_medicine_info s mn) ≠ Val.pynone
    · rw [if_pos hgp]
      rcases goodrx_of_cases (get_medicine_info s mn) with hnone | hf
      · exact absurd hnone hgp.2
      · exact hf
    · rw [if_neg hgp]
      exact full_monthly_base_float _
  rcases pyMulNat_float hfm 12 with ⟨fa, hfa, hfafl⟩
  have hms : ∃ w, (if copay_of (get_coverage_info s inn mn) = Val.pynone
      then (Except.ok Val.pynone : Except PyErr Val)
      else pySub (if si = none ∧ goodrx_of (get_medicine_info s mn) ≠ Val.pynone
        then goodrx_of (get_medicine_info s mn)
        else full_monthly_base (get_medicine_info s mn))
        (copay_of (get_coverage_info s inn mn))) = .ok w := by
    by_cases hcp : copay_of (get_coverage_info s inn mn) = Val.pynone
    · exact ⟨Val.pynone, by rw [if_pos hcp]⟩
    · rcases copay_of_cases (get_coverage_info s inn mn) with h' | hf
      · exact absurd h' hcp
      · rcases pySub_float hfm hf with ⟨w, hw, _⟩
        exact ⟨w, by rw [if_neg hcp]; exact hw⟩
  rcases hms with ⟨ms, hmsc⟩
  rcases pySub_float hfafl hfl with ⟨asv, hasv, _⟩
  have hv' : calculate_total_cost (get_medicine_info s mn) (get_insurance_info s inn)
      (get_coverage_info s inn mn) 12 = .ok v := by rw [hm]; exact hv
  simp only [add_pair, hv', hmo, hfa, hmsc, hasv]
  exact ⟨_, rfl⟩

theorem lookup_medicine_mem {s : DataStore} {n : String} {m : MedRec}
    (hm : m ∈ s.medicines) (hn : m.medicine_name = n) :
    ∃ m', get_medicine_info s n = some m' ∧ m' ∈ s.medicines := by
  have hs : (s.medicines.find? (fun x => x.medicine_name == n)).isSome := by
    rw [List.find?_isSome]
    exact ⟨m, hm, by simp [hn]⟩
  rcases Option.isSome_iff_exists.mp hs with ⟨m', hm'⟩
  exact ⟨m', hm', List.mem_of_find?_eq_some hm'⟩

theorem cash_row_fields {m : MedRec} {med : String} {p : Pairing}
    (h : cash_row m med = .ok p) :
    pyDivNat p.annual_cost 12 = .ok p.monthly_cost
    ∧ p.is_cash = true ∧ p.insurance = none ∧ p.coverage = none
    ∧ p.insurance_name = "GoodRx (CVS - DC)" ∧ p.medicine_name = med := by
  simp only [cash_row] at h
  repeat' split at h
  any_goals cases h
  all_goals simp_all

theorem current_card_fields {s : DataStore} {med ins : String} {c : CurrentCard}
    (h : current_card s med ins = .ok (some c)) :
    pyDivNat c.annual_cost 12 = .ok c.monthly_cost := by
  simp only [current_card] at h
  repeat' split at h
  any_goals cases h
  all_goals simp_all

/-! ## Claim C4: `monthly_cost = annual_cost / 12` everywhere -/

/-- C4 (confirmed). Every pairing row `build_pairings` outputs, every
synthetic cash row, and every current-selection card satisfies
`monthly_cost = annual_cost / 12` (the division succeeding, i.e. the stored
monthly cost is exactly the Python result of `annual_cost / 12`). -/
theorem monthly_is_annual_div_12 :
    (∀ (s : DataStore) (sm si : Option String) (ps : List Pairing),
        build_pairings s sm si = .ok ps →
        ∀ p ∈ ps, pyDivNat p.annual_cost 12 = .ok p.monthly_cost)
    ∧ (∀ (m : MedRec) (med : String) (p : Pairing),
        cash_row m med = .ok p → pyDivNat p.annual_cost 12 = .ok p.monthly_cost)
    ∧ (∀ (s : DataStore) (med ins : String) (c : CurrentCard),
        current_card s med ins = .ok (some c) →
        pyDivNat c.annual_cost 12 = .ok c.monthly_cost) := by
  refine ⟨?_, ?_, ?_⟩
  · intro s sm si ps hps p hp
    cases sm with
    | none =>
      cases si with
      | none =>
        simp only [build_pairings] at hps
        cases hrows : mapME (fun mn => mapME (fun inn => add_pair s none mn inn)
            (s.insurances.map (·.insurance_name))) (s.medicines.map (·.medicine_name)) with
        | error e => rw [hrows] at hps; cases hps
        | ok rows =>
          rw [hrows] at hps
          cases hps
          rcases List.mem_flatten.mp hp with ⟨row, hrow, hpin⟩
          rcases mapME_ok_mem hrows row hrow with ⟨mn, _, hrowe⟩
          rcases mapME_ok_mem hrowe p hpin with ⟨inn, _, hpe⟩
          exact (add_pair_fields hpe).1
      | some i =>
        simp only [build_pairings] at hps
        rcases mapME_ok_mem hps p hp with ⟨mn, _, hpe⟩
        exact (add_pair_fields hpe).1
    | some mn =>
      cases si with
      | none =>
        simp only [build_pairings] at hps
        rcases mapME_ok_mem hps p hp with ⟨inn, _, hpe⟩
        exact (add_pair_fields hpe).1
      | some i =>
        simp only [build_pairings] at hps
        cases hap : add_pair s (some i) mn i with
        | error e => rw [hap] at hps; cases hps
        | ok p0 =>
          rw [hap] at hps
          cases hps
          have hpp : p = p0 := List.mem_singleton.mp hp
          subst hpp
          exact (add_pair_fields hap).1
  · intro m med p h
    exact (cash_row_fields h).1
  · intro s med ins c h
    exact current_card_fields h

/-- C4 witness: the built pairing on the minimal store satisfies the
invariant. -/
theorem monthly_is_annual_div_12_witness :
    build_pairings storeW none none = .ok [pairingW]
      ∧ pyDivNat pairingW.annual_cost 12 = .ok pairingW.monthly_cost :=
  ⟨rfl, monthly_is_annual_div_12.1 storeW none none [pairingW] rfl pairingW
    (List.mem_singleton.mpr rfl)⟩

/-! ## Claim C9: robustness of pairing enumeration against unknown names -/

/-- C9 (counterexample). The claim says no lookup failure propagates as a
fatal error out of `build_pairings`; but an unknown medicine name with a
known insurance reaches `medicine_info.get('average_cost_per_month', 0)`
on a `None` medicine — that line is outside the `try` — and the
`AttributeError` propagates out of the enumeration. -/
theorem unknown_medicine_raises :
    build_pairings storeCex (some "Ozempic") none = .error PyErr.attributeError := rfl

/-- C9 (amended). On a store whose medicine rows are numerically coerced,
pairing enumeration completes for every insurance selection (known or
unknown) as long as the selected medicine is either blank or names a stored
medicine; only an unknown selected medicine makes the resolver raise. -/
theorem build_pairings_total (s : DataStore) (sel_med sel_ins : Option String)
    (hwf : s.wfMeds)
    (hsel : sel_med = none ∨ ∃ m ∈ s.medicines, sel_med = some m.medicine_name) :
    ∃ ps, build_pairings s sel_med sel_ins = .ok ps := by
  have hrow : ∀ (si : Option String) (mn inn : String),
      (∃ m ∈ s.medicines, m.medicine_name = mn) →
      ∃ p, add_pair s si mn inn = .ok p := by
    rintro si mn inn ⟨m, hm, hn⟩
    rcases lookup_medicine_mem hm hn with ⟨m', hm', hmem⟩
    exact add_pair_ok_of_found hm' (hwf m' hmem)
  have hmedlist : ∀ mn ∈ s.medicines.map (·.medicine_name),
      ∃ m ∈ s.medicines, m.medicine_name = mn := by
    intro mn hmn
    rcases List.mem_map.mp hmn with ⟨m, hm, rfl⟩
    exact ⟨m, hm, rfl⟩
  cases sel_med with
  | none =>
    cases sel_ins with
    | none =>
      have hok : ∃ rows, mapME (fun mn => mapME (fun inn => add_pair s none mn inn)
          (s.insurances.map (·.insurance_name))) (s.medicines.map (·.medicine_name))
          = .ok rows := by
        apply mapME_ok_of_forall
        intro mn hmn
        apply mapME_ok_of_forall
        intro inn _
        exact hrow none mn inn (hmedlist mn hmn)
      rcases hok with ⟨rows, hrows⟩
      exact ⟨rows.flatten, by simp only [build_pairings, hrows]⟩
    | some i =>
      apply mapME_ok_of_forall
      intro mn hmn
      exact hrow (some i) mn i (hmedlist mn hmn)
  | some mn =>
    rcases hsel with h | ⟨m, hm, hesel⟩
    · cases h
    · have hmn : ∃ m' ∈ s.medicines, m'.medicine_name = mn := by
        rcases Option.some.inj hesel with rfl
        exact ⟨m, hm, rfl⟩
      cases sel_ins with
      | none =>
        apply mapME_ok_of_forall
        intro inn _
        exact hrow none mn inn hmn
      | some i =>
        rcases hrow (some i) mn i hmn with ⟨p, hp⟩
        exact ⟨[p], by simp only [build_pairings, hp]⟩

/-- C9 witness: enumeration completes on the minimal store with a known
medicine and an unknown insurance name. -/
theorem build_pairings_total_witness :
    ∃ ps, build_pairings storeW (some "A") (some "Unknown Ins") = .ok ps :=
  build_pairings_total storeW (some "A") (some "Unknown Ins")
    (by
      intro m hm
      simp only [storeW, List.mem_singleton] at hm
      subst hm
      intro x hx
      have hx' : Val.num 3 = x := Option.some.inj hx
      exact Or.inl ⟨3, hx'.symm⟩)
    (Or.inr ⟨medA, by simp [storeW], rfl⟩)

/-! ## Claim C10: a zero cash price is priced but never surfaced -/

/-- C10 (confirmed). With `goodrx_price = 0`: the resolver prices the
medicine as cash (0 × 12 = 0) when no insurance is given, the enrichment
sets `goodrx_price = 0.0` and `goodrx_eligible = True`, yet the injection
guard tests the raw price for truthiness, `0` is falsy, and no cash row is
ever inserted. -/
theorem zero_cash_price (m : MedRec) (hgr : m.goodrx_price = some (Val.num 0)) :
    calculate_total_cost (some m) none none 12 = .ok (Val.num 0)
    ∧ goodrx_of (some m) = Val.num 0
    ∧ (∀ (s : DataStore) (med : String) (ps : List Pairing),
        get_medicine_info s med = some m → inject_cash s (some med) none ps = ps)
    ∧ (∀ (s : DataStore) (si : Option String) (mn inn : String) (p : Pairing),
        get_medicine_info s mn = some m → add_pair s si mn inn = .ok p →
        p.goodrx_price = Val.num 0 ∧ p.goodrx_eligible = true) := by
  have hgood : goodrx_of (some m) = Val.num 0 := by
    simp [goodrx_of, hgr, pdIsna, pyFloat, FloatV.toVal]
  refine ⟨?_, hgood, ?_, ?_⟩
  · have hcb : cash_branch m = some (FloatV.num 0) := by
      simp [cash_branch, hgr, pdIsna, pyFloat]
    have h1 : calculate_total_cost (some m) none none 12
        = .ok (Val.num (0 * ((12 : ℕ) : ℚ))) := by
      simp [calculate_total_cost, covered_flag, hcb, FloatV.mulN, FloatV.toVal]
    rw [h1]
    norm_num
  · intro s med ps hm
    have hguard : cash_guard s med = false := by
      simp [cash_guard, hm, hgr, truthy]
    simp [inject_cash, hguard]
  · intro s si mn inn p hm hp
    have h2 := (add_pair_fields hp).2.1
    have h3 := (add_pair_fields hp).2.2.1
    rw [hm, hgood] at h2 h3
    refine ⟨h2, ?_⟩
    rw [h3]
    decide

/-- C10 witness: on the concrete zero-cash-price store, the resolver returns
0 and the injection leaves the list unchanged. -/
theorem zero_cash_price_witness :
    calculate_total_cost (some medZ) none none 12 = .ok (Val.num 0)
      ∧ inject_cash storeZ (some "Z") none [] = [] :=
  ⟨(zero_cash_price medZ rfl).1, (zero_cash_price medZ rfl).2.2.1 storeZ "Z" [] rfl⟩

/-! ## Claim C5: the synthetic cash-price row -/

/-- C5 (confirmed). When a medicine with a nonzero numeric cash price is
selected and insurance is blank, exactly one synthetic pairing is prepended
(position 0) before the sort runs; it carries no insurance or coverage
record, is tagged `is_cash`, and has
`full_annual = annual_cost = goodrx_price × 12`. -/
theorem cash_injection (s : DataStore) (med : String) (m : MedRec) (q : ℚ)
    (hm : get_medicine_info s med = some m)
    (hgr : m.goodrx_price = some (Val.num q)) (hq : q ≠ 0) :
    ∃ cp, (∀ ps, inject_cash s (some med) none ps = cp :: ps)
      ∧ cp.is_cash = true ∧ cp.insurance = none ∧ cp.coverage = none
      ∧ cp.insurance_name = "GoodRx (CVS - DC)" ∧ cp.medicine_name = med
      ∧ cp.full_annual = Val.num (q * ((12 : ℕ) : ℚ))
      ∧ cp.annual_cost = Val.num (q * ((12 : ℕ) : ℚ))
      ∧ (∀ sort_by order ps0, build_pairings s (some med) none = .ok ps0 →
          broad_results s (some med) none sort_by order
            = .ok (sortPairings sort_by order (cp :: ps0))) := by
  have hcb : cash_branch m = some (FloatV.num q) := by
    simp [cash_branch, hgr, pdIsna, pyFloat]
  have hcalc : calculate_total_cost (some m) none none 12
      = .ok (Val.num (q * ((12 : ℕ) : ℚ))) := by
    simp [calculate_total_cost, covered_flag, hcb, FloatV.mulN, FloatV.toVal]
  have hrow : cash_row m med = .ok
      { medicine_name := med, insurance_name := "GoodRx (CVS - DC)",
        medicine := some m, insurance := none, coverage := none,
        annual_cost := Val.num (q * ((12 : ℕ) : ℚ)),
        monthly_cost := Val.num (q * ((12 : ℕ) : ℚ) / ((12 : ℕ) : ℚ)),
        full_monthly := Val.num q, full_annual := Val.num (q * ((12 : ℕ) : ℚ)),
        copay_amount := Val.pynone, monthly_savings := Val.pynone,
        annual_savings := Val.pynone, is_cash := true } := by
    simp [cash_row, hcalc, pyDivNat, hgr, pyFloat, FloatV.mulN, FloatV.toVal]
  have hguard : cash_guard s med = true := by
    simp [cash_guard, hm, hgr, truthy, pdIsna, hq]
  have hinj : ∀ ps, inject_cash s (some med) none ps
      = { medicine_name := med, insurance_name := "GoodRx (CVS - DC)",
          medicine := some m, insurance := none, coverage := none,
          annual_cost := Val.num (q * ((12 : ℕ) : ℚ)),
          monthly_cost := Val.num (q * ((12 : ℕ) : ℚ) / ((12 : ℕ) : ℚ)),
          full_monthly := Val.num q, full_annual := Val.num (q * ((12 : ℕ) : ℚ)),
          copay_amount := Val.pynone, monthly_savings := Val.pynone,
          annual_savings := Val.pynone, is_cash := true } :: ps := by
    intro ps
    simp [inject_cash, hguard, hm, hrow]
  refine ⟨_, hinj, rfl, rfl, rfl, rfl, rfl, rfl, rfl, ?_⟩
  intro sort_by order ps0 hb
  simp [broad_results, hb, hinj ps0]

/-- C5 witness: cash price 25, no insurance selected — the injected row has
`full_annual = annual_cost = 25 × 12 = 300`. -/
theorem cash_injection_witness :
    (∃ cp, (∀ ps, inject_cash storeCash (some "C25") none ps = cp :: ps)
      ∧ cp.is_cash = true ∧ cp.insurance = none ∧ cp.coverage = none
      ∧ cp.insurance_name = "GoodRx (CVS - DC)" ∧ cp.medicine_name = "C25"
      ∧ cp.full_annual = Val.num (25 * ((12 : ℕ) : ℚ))
      ∧ cp.annual_cost = Val.num (25 * ((12 : ℕ) : ℚ))
      ∧ (∀ sort_by order ps0, build_pairings storeCash (some "C25") none = .ok ps0 →
          broad_results storeCash (some "C25") none sort_by order
            = .ok (sortPairings sort_by order (cp :: ps0))))
    ∧ (25 * ((12 : ℕ) : ℚ)) = 300 :=
  ⟨cash_injection storeCash "C25" medCash25S 25 rfl rfl (by norm_num), by norm_num⟩

/-! ## Claim C7: the trial-flow state machine -/

/-- C7 (confirmed). Over a fixed sequence: "No" at an in-range index selects
that entry and the flow ends with results built for it; "Yes" sets the index
to `i + 1`, emitting the next question with no results while in range, and
past the end it ends with no medicine filter, building all pairings. -/
theorem trial_flow_machine (seq : List String) (s : DataStore) (i : ℕ)
    (sel_ins : Option String) :
    (∀ (hlt : i < seq.length),
        (trial_step seq "No" i).selected_medicine = some (seq.get ⟨i, hlt⟩)
        ∧ (trial_step seq "No" i).skip_build_results = false
        ∧ (trial_step seq "No" i).show_all_after_trial = false
        ∧ trial_flow_pairings s seq "No" i sel_ins
            = build_pairings s (some (seq.get ⟨i, hlt⟩)) sel_ins)
    ∧ (trial_step seq "Yes" i).trial_index = i + 1
    ∧ (i + 1 < seq.length →
        (trial_step seq "Yes" i).trial_question = seq.get? (i + 1)
        ∧ (trial_step seq "Yes" i).skip_build_results = true
        ∧ trial_flow_pairings s seq "Yes" i sel_ins = .ok [])
    ∧ (i + 1 = seq.length →
        (trial_step seq "Yes" i).show_all_after_trial = true
        ∧ (trial_step seq "Yes" i).selected_medicine = none
        ∧ trial_flow_pairings s seq "Yes" i sel_ins = build_pairings s none none) := by
  have hno : (lowerStr (trimStr "No") == "no") = true := rfl
  have hyes : (lowerStr (trimStr "Yes") == "no") = false := rfl
  refine ⟨?_, ?_, ?_, ?_⟩
  · intro hlt
    have hget : seq.get? i = some (seq.get ⟨i, hlt⟩) := List.get?_eq_get hlt
    refine ⟨by simp [trial_step, hno, hget], by simp [trial_step, hno],
      by simp [trial_step, hno], ?_⟩
    simp [trial_flow_pairings, trial_step, hno, hget, List.getElem?_eq_getElem hlt,
      List.get_eq_getElem]
  · by_cases h : i + 1 < seq.length <;> simp [trial_step, hyes, h]
  · intro h
    refine ⟨by simp [trial_step, hyes, h], by simp [trial_step, hyes, h], ?_⟩
    simp [trial_flow_pairings, trial_step, hyes, h]
  · intro h
    have h' : ¬ (i + 1 < seq.length) := by omega
    refine ⟨by simp [trial_step, hyes, h'], by simp [trial_step, hyes, h'], ?_⟩
    simp [trial_flow_pairings, trial_step, hyes, h']

/-- C7 witness: over the prefix [Metformin, Glipizide] of the trial sequence,
"Yes" then "No" makes the second question "Glipizide" and then selects
"Glipizide". -/
theorem trial_flow_machine_witness :
    (trial_step TRIAL_SEQUENCE "Yes" 0).trial_question = some "Glipizide"
      ∧ (trial_step TRIAL_SEQUENCE "No" 1).selected_medicine = some "Glipizide" := by
  constructor
  · have h := ((trial_flow_machine TRIAL_SEQUENCE storeW 0 none).2.2.1 (by decide)).1
    rw [h]
    rfl
  · have h := ((trial_flow_machine TRIAL_SEQUENCE storeW 1 none).1 (by decide)).1
    rw [h]
    rfl

/-! ## Claim C8: the higher-tier flag -/

/-- C8 (confirmed). With a tried medicine M, a pairing's flag is true exactly
when both M's tier under the pairing's insurance and the pairing's own tier
parse as ordinals and the pairing's is strictly greater; strings shaped like
"Tier 2" parse, while unparsable or absent tier values yield `None` and the
flag just comes out false (the computation is total — nothing is raised). -/
theorem higher_tier_flag (s : DataStore) (M : String) (p : Pairing) :
    (is_higher_tier s M p = true ↔
      ∃ pt st : ℤ,
        tier_num (tier_of_cov p.coverage) = some pt
        ∧ tier_num (tier_of_cov (get_coverage_info s p.insurance_name M)) = some st
        ∧ st < pt)
    ∧ tier_num (Val.str "Tier 2") = some 2
    ∧ tier_num (Val.str "not a tier") = none
    ∧ tier_num Val.pynone = none
    ∧ tier_num Val.nan = none := by
  refine ⟨?_, by decide, by decide, rfl, by decide⟩
  simp only [is_higher_tier]
  cases hp : tier_num (tier_of_cov p.coverage) with
  | none => simp [hp]
  | some pt =>
    cases hsel : tier_num (tier_of_cov (get_coverage_info s p.insurance_name M)) with
    | none => simp [hp, hsel]
    | some st => simp [hp, hsel]

/-! ## Helper lemmas: the stable sort -/

theorem insSorted_perm {α : Type} (lt : α → α → Bool) (a : α) (s : List α) :
    List.Perm (insSorted lt a s) (a :: s) := by
  induction s with
  | nil => simp [insSorted]
  | cons b t ih =>
    by_cases h : lt a b = true
    · simp [insSorted, h]
    · simp only [insSorted, if_neg h]
      exact (ih.cons b).trans (List.Perm.swap a b t)

theorem stableSort_perm {α : Type} (lt : α → α → Bool) (l : List α) :
    List.Perm (stableSort lt l) l := by
  suffices h : ∀ (l s : List α), List.Perm (l.foldl (fun s a => insSorted lt a s) s) (s ++ l) by
    simpa [stableSort] using h l []
  intro l
  induction l with
  | nil => intro s; simp
  | cons a t ih =>
    intro s
    have h1 : List.Perm ((a :: t).foldl (fun s a => insSorted lt a s) s)
        (insSorted lt a s ++ t) := ih _
    have h2 : List.Perm (insSorted lt a s ++ t) ((a :: s) ++ t) :=
      (insSorted_perm lt a s).append_right t
    have h3 : List.Perm ((a :: s) ++ t) (s ++ a :: t) := by
      simpa using List.perm_middle.symm
    exact (h1.trans h2).trans h3

theorem mem_insSorted {α : Type} {lt : α → α → Bool} {a x : α} {s : List α} :
    x ∈ insSorted lt a s ↔ x = a ∨ x ∈ s := by
  rw [(insSorted_perm lt a s).mem_iff]
  simp

theorem fltLt_asym {f g : FloatV} (h : fltLt f g = true) : fltLt g f = false := by
  cases f <;> cases g <;> simp_all [fltLt]
  exact le_of_lt h

theorem ltKey_asym {k k' : SortKey} (h : ltKey k k' = true) : ltKey k' k = false := by
  cases k <;> cases k' <;> simp_all [ltKey]
  case str.str => exact le_of_lt h
  case flt.flt => exact fltLt_asym h

theorem ltKey_propagate {k₁ k₂ k₃ : SortKey} (h1 : ltKey k₁ k₃ = true)
    (h2 : ltKey k₂ k₃ = false) : ltKey k₂ k₁ = false := by
  cases k₁ <;> cases k₂ <;> cases k₃ <;> simp_all [ltKey]
  case str.str.str => exact le_trans (le_of_lt h1) h2
  case flt.flt.flt f g e =>
    cases f <;> cases g <;> cases e <;> simp_all [fltLt, FloatV.isNum]
    exact le_trans (le_of_lt h1) h2
  case flt.flt.posInf f g => cases g <;> simp_all [fltLt, FloatV.isNum]
  case flt.negInf.flt f e => cases e <;> cases f <;> simp_all [fltLt, FloatV.isNum]

theorem ltKey_dual {k₁ k₂ k₃ : SortKey} (h1 : ltKey k₃ k₁ = true)
    (h2 : ltKey k₃ k₂ = false) : ltKey k₁ k₂ = false := by
  cases k₁ <;> cases k₂ <;> cases k₃ <;> simp_all [ltKey]
  case str.str.str => exact le_trans h2 (le_of_lt h1)
  case flt.flt.flt f g e =>
    cases f <;> cases g <;> cases e <;> simp_all [fltLt, FloatV.isNum]
    exact le_trans h2 (le_of_lt h1)
  case flt.flt.negInf f g => cases g <;> cases f <;> simp_all [fltLt, FloatV.isNum]
  case flt.posInf.flt f e => cases e <;> cases f <;> simp_all [fltLt, FloatV.isNum]

theorem ltKey_irrefl (k : SortKey) : ltKey k k = false := by
  by_cases h : ltKey k k = true
  · exact absurd (ltKey_asym h) (by simp [h])
  · simpa using h

theorem insSorted_keyInv {α κ : Type} {key : α → κ} {ltk : κ → κ → Bool}
    (hA : ∀ k k', ltk k k' = true → ltk k' k = false)
    (hT : ∀ k₁ k₂ k₃, ltk k₁ k₃ = true → ltk k₂ k₃ = false → ltk k₂ k₁ = false)
    (a : α) {s : List α} (hs : keyInv key ltk s) :
    keyInv key ltk (insSorted (keyLt key ltk) a s) := by
  induction s with
  | nil => simp [insSorted, keyInv]
  | cons b t ih =>
    rcases List.pairwise_cons.mp hs with ⟨hb, ht⟩
    by_cases h : keyLt key ltk a b = true
    · simp only [insSorted, if_pos h]
      refine List.pairwise_cons.mpr ⟨?_, hs⟩
      intro y hy
      rcases List.mem_cons.mp hy with rfl | hy
      · exact hA _ _ h
      · exact hT _ _ _ h (hb y hy)
    · simp only [insSorted, if_neg h]
      refine List.pairwise_cons.mpr ⟨?_, ih ht⟩
      intro y hy
      rcases mem_insSorted.mp hy with rfl | hy
      · simpa [keyLt] using h
      · exact hb y hy

theorem stableSort_keyInv {α κ : Type} {key : α → κ} {ltk : κ → κ → Bool}
    (hA : ∀ k k', ltk k k' = true → ltk k' k = false)
    (hT : ∀ k₁ k₂ k₃, ltk k₁ k₃ = true → ltk k₂ k₃ = false → ltk k₂ k₁ = false)
    (l : List α) : keyInv key ltk (stableSort (keyLt key ltk) l) := by
  suffices h : ∀ (l : List α) (s : List α), keyInv key ltk s →
      keyInv key ltk (l.foldl (fun s a => insSorted (keyLt key ltk) a s) s) by
    exact h l [] (by simp [keyInv])
  intro l
  induction l with
  | nil => intro s hs; exact hs
  | cons a t ih => intro s hs; exact ih _ (insSorted_keyInv hA hT a hs)

theorem insSorted_filter {α κ : Type} [DecidableEq κ] {key : α → κ} {ltk : κ → κ → Bool}
    (hA : ∀ k k', ltk k k' = true → ltk k' k = false)
    (a : α) {s : List α} (hs : keyInv key ltk s) (k : κ) :
    (insSorted (keyLt key ltk) a s).filter (fun x => key x == k)
      = if key a == k then s.filter (fun x => key x == k) ++ [a]
        else s.filter (fun x => key x == k) := by
  induction s with
  | nil => by_cases h : key a == k <;> simp [insSorted, h]
  | cons b t ih =>
    rcases List.pairwise_cons.mp hs with ⟨hb, ht⟩
    by_cases h : keyLt key ltk a b = true
    · simp only [insSorted, if_pos h]
      by_cases hk : key a == k
      · have hke : key a = k := by simpa using hk
        have hnone : (b :: t).filter (fun x => key x == k) = [] := by
          rw [List.filter_eq_nil_iff]
          intro y hy hyk
          have hky : key y = key a := by
            have : key y = k := by simpa using hyk
            rw [this, hke]
          rcases List.mem_cons.mp hy with rfl | hyt
          · have hirr : ltk (key a) (key a) = false := by
              by_cases hi : ltk (key a) (key a) = true
              · exact absurd (hA _ _ hi) (by simp [hi])
              · simpa using hi
            rw [keyLt, hky] at h
            rw [h] at hirr
            cases hirr
          · have := hb y hyt
            rw [hky] at this
            rw [keyLt] at h
            rw [h] at this
            cases this
        rw [hnone, if_pos hk]
        simp only [List.filter_cons, hk, hnone]
        simp
      · rw [if_neg hk]
        simp only [List.filter_cons, hk]
        simp only [Bool.false_eq_true, if_neg (by simpa using hk)]
        rfl
    · simp only [insSorted, if_neg h]
      by_cases hk : key a == k <;> by_cases hbk : key b == k <;>
        simp [List.filter_cons, ih ht, hk, hbk]

theorem stableSort_filter {α κ : Type} [DecidableEq κ] {key : α → κ} {ltk : κ → κ → Bool}
    (hA : ∀ k k', ltk k k' = true → ltk k' k = false)
    (hT : ∀ k₁ k₂ k₃, ltk k₁ k₃ = true → ltk k₂ k₃ = false → ltk k₂ k₁ = false)
    (l : List α) (k : κ) :
    (stableSort (keyLt key ltk) l).filter (fun x => key x == k)
      = l.filter (fun x => key x == k) := by
  suffices h : ∀ (l s : List α), keyInv key ltk s →
      (l.foldl (fun s a => insSorted (keyLt key ltk) a s) s).filter (fun x => key x == k)
        = s.filter (fun x => key x == k) ++ l.filter (fun x => key x == k) by
    simpa [stableSort] using h l [] (by simp [keyInv])
  intro l
  induction l with
  | nil => intro s _; simp
  | cons a t ih =>
    intro s hs
    have hstep : (a :: t).foldl (fun s a => insSorted (keyLt key ltk) a s) s
        = t.foldl (fun s a => insSorted (keyLt key ltk) a s)
            (insSorted (keyLt key ltk) a s) := rfl
    rw [hstep, ih _ (insSorted_keyInv hA hT a hs), insSorted_filter hA a hs k]
    by_cases hk : key a == k <;> simp [hk, List.filter_cons]

theorem takeWhile_append_all {α : Type} {p : α → Bool} {xs : List α}
    (h : ∀ x ∈ xs, p x = true) (ys : List α) :
    (xs ++ ys).takeWhile p = xs ++ ys.takeWhile p := by
  induction xs with
  | nil => simp
  | cons a t ih =>
    have ha : p a = true := h a (List.mem_cons_self a t)
    simp only [List.cons_append, List.takeWhile_cons, ha, if_true]
    rw [ih (fun x hx => h x (List.mem_cons_of_mem a hx))]

theorem dropWhile_append_all {α : Type} {p : α → Bool} {xs : List α}
    (h : ∀ x ∈ xs, p x = true) (ys : List α) :
    (xs ++ ys).dropWhile p = ys.dropWhile p := by
  induction xs with
  | nil => simp
  | cons a t ih =>
    have ha : p a = true := h a (List.mem_cons_self a t)
    simp only [List.cons_append, List.dropWhile_cons, ha, if_true]
    exact ih (fun x hx => h x (List.mem_cons_of_mem a hx))

theorem takeWhile_eq_nil_all {α : Type} {p : α → Bool} {xs : List α}
    (h : ∀ x ∈ xs, p x = false) : xs.takeWhile p = [] := by
  cases xs with
  | nil => rfl
  | cons a t => simp [List.takeWhile_cons, h a (List.mem_cons_self a t)]

theorem dropWhile_eq_self_all {α : Type} {p : α → Bool} {xs : List α}
    (h : ∀ x ∈ xs, p x = false) : xs.dropWhile p = xs := by
  cases xs with
  | nil => rfl
  | cons a t => simp [List.dropWhile_cons, h a (List.mem_cons_self a t)]

theorem insSorted_eq_split {α : Type} (lt : α → α → Bool) (a : α) (s : List α) :
    insSorted lt a s
      = s.takeWhile (fun b => !(lt a b)) ++ a :: s.dropWhile (fun b => !(lt a b)) := by
  induction s with
  | nil => simp [insSorted]
  | cons b t ih =>
    by_cases h : lt a b = true
    · simp [insSorted, h, List.takeWhile_cons, List.dropWhile_cons]
    · have h' : lt a b = false := by simpa using h
      simp [insSorted, h', List.takeWhile_cons, List.dropWhile_cons, ih]

theorem dropWhile_head_false {α : Type} {p : α → Bool} {s : List α} {c : α} {v : List α}
    (h : s.dropWhile p = c :: v) : p c = false := by
  induction s with
  | nil => cases h
  | cons a t ih =>
    by_cases hpa : p a = true
    · rw [List.dropWhile_cons, if_pos hpa] at h
      exact ih h
    · have hpa' : p a = false := by simpa using hpa
      rw [List.dropWhile_cons, hpa'] at h
      simp only [Bool.false_eq_true, if_false] at h
      cases h
      exact hpa'

theorem insSorted_reverse {α κ : Type} {key : α → κ} {ltk : κ → κ → Bool}
    (hA : ∀ k k', ltk k k' = true → ltk k' k = false)
    (hT : ∀ k₁ k₂ k₃, ltk k₁ k₃ = true → ltk k₂ k₃ = false → ltk k₂ k₁ = false)
    (a : α) {s : List α} (hs : keyInv key ltk s)
    (hcomp : ∀ b ∈ s, ltk (key a) (key b) = true ∨ ltk (key b) (key a) = true) :
    insSorted (keyLt key (fun x y => ltk y x)) a s.reverse
      = (insSorted (keyLt key ltk) a s).reverse := by
  have hu : ∀ b ∈ s.takeWhile (fun b => !(keyLt key ltk a b)), ltk (key b) (key a) = true := by
    intro b hb
    have hpb := List.mem_takeWhile_imp hb
    have hlt : ltk (key a) (key b) = false := by
      simpa [keyLt] using hpb
    have hbs : b ∈ s := (List.takeWhile_sublist _).subset hb
    rcases hcomp b hbs with h1 | h1
    · rw [h1] at hlt; cases hlt
    · exact h1
  have hv : ∀ b ∈ s.dropWhile (fun b => !(keyLt key ltk a b)), ltk (key b) (key a) = false := by
    cases hvd : s.dropWhile (fun b => !(keyLt key ltk a b)) with
    | nil => intro b hb; simp at hb
    | cons c v' =>
      have hpc := dropWhile_head_false hvd
      have hac : ltk (key a) (key c) = true := by
        simpa [keyLt] using hpc
      have hpair : ∀ y ∈ v', ltk (key y) (key c) = false := by
        have hss : s.takeWhile (fun b => !(keyLt key ltk a b)) ++ (c :: v') = s := by
          rw [← hvd]; exact List.takeWhile_append_dropWhile _ _
        have hinv2 : keyInv key ltk (s.takeWhile (fun b => !(keyLt key ltk a b)) ++ (c :: v')) := by
          rw [hss]; exact hs
        have := (List.pairwise_append.mp hinv2).2.1
        exact (List.pairwise_cons.mp this).1
      intro b hb
      rcases List.mem_cons.mp hb with rfl | hb'
      · exact hA _ _ hac
      · exact hT _ _ _ hac (hpair b hb')
  have hq : ∀ b ∈ (s.dropWhile (fun b => !(keyLt key ltk a b))).reverse,
      (fun b => !(keyLt key (fun x y => ltk y x) a b)) b = true := by
    intro b hb
    simp [keyLt, hv b (List.mem_reverse.mp hb)]
  have hq2 : ∀ b ∈ (s.takeWhile (fun b => !(keyLt key ltk a b))).reverse,
      (fun b => !(keyLt key (fun x y => ltk y x) a b)) b = false := by
    intro b hb
    simp [keyLt, hu b (List.mem_reverse.mp hb)]
  have hrev : s.reverse = (s.dropWhile (fun b => !(keyLt key ltk a b))).reverse
      ++ (s.takeWhile (fun b => !(keyLt key ltk a b))).reverse := by
    rw [← List.reverse_append, List.takeWhile_append_dropWhile _ _]
  rw [insSorted_eq_split (keyLt key ltk) a s,
    insSorted_eq_split (keyLt key (fun x y => ltk y x)) a s.reverse, hrev,
    takeWhile_append_all hq, dropWhile_append_all hq,
    takeWhile_eq_nil_all hq2, dropWhile_eq_self_all hq2]
  simp

theorem stableSort_reverse {α κ : Type} {key : α → κ} {ltk : κ → κ → Bool}
    (hA : ∀ k k', ltk k k' = true → ltk k' k = false)
    (hT : ∀ k₁ k₂ k₃, ltk k₁ k₃ = true → ltk k₂ k₃ = false → ltk k₂ k₁ = false)
    {l : List α}
    (hcomp : l.Pairwise (fun x y => ltk (key x) (key y) = true ∨ ltk (key y) (key x) = true)) :
    stableSort (keyLt key (fun x y => ltk y x)) l = (stableSort (keyLt key ltk) l).reverse := by
  induction l using List.reverseRecOn with
  | nil => rfl
  | append_singleton t a ih =>
    have hfold : ∀ (lt : α → α → Bool),
        stableSort lt (t ++ [a]) = insSorted lt a (stableSort lt t) := by
      intro lt; simp [stableSort, List.foldl_append]
    have hct : t.Pairwise
        (fun x y => ltk (key x) (key y) = true ∨ ltk (key y) (key x) = true) :=
      hcomp.sublist (List.sublist_append_left t [a])
    have hca : ∀ b ∈ t, ltk (key b) (key a) = true ∨ ltk (key a) (key b) = true := by
      have hsp := (List.pairwise_append.mp hcomp).2.2
      intro b hb
      exact hsp b hb a (List.mem_singleton.mpr rfl)
    rw [hfold, hfold, ih hct]
    apply insSorted_reverse hA hT a (stableSort_keyInv hA hT t)
    intro b hb
    have hbt : b ∈ t := (stableSort_perm _ t).subset hb
    rcases hca b hbt with h | h
    · exact Or.inr h
    · exact Or.inl h

/-! ## Claim C6: the sort stage -/

/-- C6 (confirmed). The sort stage is total over the enriched list: the
`monthly`/`annual` keys send a missing (`None`) cost to `+inf` and the
`savings` key sends a missing savings to `-inf`; the output is always a
permutation of the input; elements with equal keys keep their prior relative
order under both `asc` and `desc` (reversal flips the comparison, not the
tie-break); and on pairwise strictly-comparable (non-tied) keys, sorting
descending yields exactly the reverse of sorting ascending. -/
theorem sort_stage_spec :
    (∀ p : Pairing,
        (p.monthly_cost = Val.pynone → sort_key "monthly" p = SortKey.posInf)
        ∧ (p.annual_cost = Val.pynone → sort_key "annual" p = SortKey.posInf)
        ∧ (p.annual_savings = Val.pynone → sort_key "savings" p = SortKey.negInf))
    ∧ (∀ (sort_by order : String) (ps : List Pairing),
        List.Perm (sortPairings sort_by order ps) ps)
    ∧ (∀ (sort_by order : String) (ps : List Pairing) (k : SortKey),
        (sortPairings sort_by order ps).filter (fun p => sort_key sort_by p == k)
          = ps.filter (fun p => sort_key sort_by p == k))
    ∧ (∀ (sort_by : String) (ps : List Pairing),
        ps.Pairwise (fun x y => ltKey (sort_key sort_by x) (sort_key sort_by y) = true
            ∨ ltKey (sort_key sort_by y) (sort_key sort_by x) = true) →
        sortPairings sort_by "desc" ps = (sortPairings sort_by "asc" ps).reverse) := by
  have hA : ∀ k k' : SortKey, ltKey k k' = true → ltKey k' k = false :=
    fun _ _ h => ltKey_asym h
  have hT : ∀ k₁ k₂ k₃ : SortKey, ltKey k₁ k₃ = true → ltKey k₂ k₃ = false →
      ltKey k₂ k₁ = false := fun _ _ _ h1 h2 => ltKey_propagate h1 h2
  have hA' : ∀ k k' : SortKey, (fun x y => ltKey y x) k k' = true →
      (fun x y => ltKey y x) k' k = false := fun _ _ h => ltKey_asym h
  have hT' : ∀ k₁ k₂ k₃ : SortKey, (fun x y => ltKey y x) k₁ k₃ = true →
      (fun x y => ltKey y x) k₂ k₃ = false → (fun x y => ltKey y x) k₂ k₁ = false :=
    fun _ _ _ h1 h2 => ltKey_dual h1 h2
  refine ⟨?_, ?_, ?_, ?_⟩
  · intro p
    refine ⟨?_, ?_, ?_⟩ <;> intro h <;> simp [sort_key, h]
  · intro sort_by order ps
    by_cases hd : (order == "desc") = true <;> simp only [sortPairings, hd] <;>
      exact stableSort_perm _ ps
  · intro sort_by order ps k
    by_cases hd : (order == "desc") = true
    · have hgoal : sortPairings sort_by order ps
          = stableSort (keyLt (sort_key sort_by) (fun x y => ltKey y x)) ps := by
        simp only [sortPairings, hd, if_true]
        rfl
      rw [hgoal]
      exact stableSort_filter hA' hT' ps k
    · have hgoal : sortPairings sort_by order ps
          = stableSort (keyLt (sort_key sort_by) ltKey) ps := by
        simp only [sortPairings, hd]
        rw [if_neg (by simp [hd])]
        rfl
      rw [hgoal]
      exact stableSort_filter hA hT ps k
  · intro sort_by ps hcomp
    have h1 : sortPairings sort_by "desc" ps
        = stableSort (keyLt (sort_key sort_by) (fun x y => ltKey y x)) ps := rfl
    have h2 : sortPairings sort_by "asc" ps
        = stableSort (keyLt (sort_key sort_by) ltKey) ps := rfl
    rw [h1, h2]
    exact stableSort_reverse hA hT hcomp

/-- C6 witness: on two rows with distinct annual costs (5 and 10) the
descending sort is the exact reverse of the ascending sort, and a row with a
missing monthly cost gets the `+inf` key. -/
theorem sort_stage_spec_witness :
    sortPairings "annual" "desc" [pSortB, pSortA]
        = (sortPairings "annual" "asc" [pSortB, pSortA]).reverse
      ∧ sort_key "monthly" pSortA = SortKey.posInf := by
  constructor
  · apply sort_stage_spec.2.2.2
    refine List.pairwise_cons.mpr ⟨?_, List.pairwise_singleton _ _⟩
    intro y hy
    have hy' : y = pSortA := List.mem_singleton.mp hy
    subst hy'
    left
    have hb : sort_key "annual" pSortB = SortKey.flt (FloatV.num 5) := rfl
    have ha : sort_key "annual" pSortA = SortKey.flt (FloatV.num 10) := rfl
    rw [hb, ha]
    simp only [ltKey, fltLt, decide_eq_true_eq]
    norm_num
  · exact (sort_stage_spec.1 pSortA).1 rfl

end DCAccess
